import Mathlib

/-
Verification of the higan libretro target's content-resolution and import
subsystem (higan/target-libretro/libretro.cpp, libretro-sfc.cpp).

The C++ code is shallowly embedded:
  * byte buffers (vector<uint8_t>) become `List Nat`;
  * nall::map<string, vector<uint8_t>> becomes an association list with
    overwrite-on-insert semantics;
  * the frontend environment (environ_cb directory queries, inode::exists,
    file::read, vfs::fs::file::open) becomes an explicit `Env` record of
    pure functions;
  * the emulation engine (serialize / run / unserialize) becomes an
    explicit `Engine` record over an abstract state;
  * the icarus content detector (Icarus::import, Icarus::missing) becomes
    an explicit `Detector` record.
Stateful C++ members are threaded explicitly through each function.
-/

namespace Higan

abbrev Bytes := List Nat

/-- `nall::map<string, vector<uint8_t>>` as used for
`LibretroIcarus::imported_files`: an association list where insertion
overwrites any previous binding of the same key. -/
abbrev FileMap := List (String × Bytes)

def FileMap.find : FileMap → String → Option Bytes
  | [], _ => none
  | (k, v) :: rest, n => if k = n then some v else FileMap.find rest n

def FileMap.insert (m : FileMap) (k : String) (v : Bytes) : FileMap :=
  (k, v) :: List.filter (fun kv => if kv.1 = k then false else true) m

theorem FileMap.find_insert_self (m : FileMap) (k : String) (v : Bytes) :
    FileMap.find (FileMap.insert m k v) k = some v := by
  simp [FileMap.insert, FileMap.find]

theorem FileMap.find_filter (m : FileMap) (k k' : String) (h : k ≠ k') :
    FileMap.find (List.filter (fun kv => if kv.1 = k then false else true) m) k'
      = FileMap.find m k' := by
  induction m with
  | nil => rfl
  | cons kv rest ih =>
    obtain ⟨a, b⟩ := kv
    have hks : ¬ k' = k := fun e => h e.symm
    by_cases hk : a = k
    · subst hk
      simp_all [List.filter, FileMap.find]
    · by_cases hk' : a = k'
      · subst hk'
        simp_all [List.filter, FileMap.find]
      · simp_all [List.filter, FileMap.find]

theorem FileMap.find_insert_ne (m : FileMap) (k k' : String) (v : Bytes)
    (h : k ≠ k') : FileMap.find (FileMap.insert m k v) k' = FileMap.find m k' := by
  unfold FileMap.insert
  simp only [FileMap.find, if_neg h]
  exact FileMap.find_filter m k k' h

/-- `nall::Location::file`: the portion of a path after the final slash
(the whole string when it has no slash). -/
def locationFile (p : String) : String :=
  String.mk ((p.data.reverse.takeWhile (fun c => c ≠ '/')).reverse)

/-- `vfs::file::mode` as passed to `Program::open`; the dispatcher only
distinguishes `read` from the rest. -/
inductive Mode where
  | read
  | write
  | modify
  | append
deriving DecidableEq

/-- The frontend / operating-system environment consumed by the libretro
target: the two directories the frontend may declare
(RETRO_ENVIRONMENT_GET_SYSTEM_DIRECTORY and
RETRO_ENVIRONMENT_GET_SAVE_DIRECTORY; `none` models an absent callback, a
callback that returns false, or a null pointer result), the higan
configuration and local paths (`Path::config()` / `Path::local()`, which
end in a slash), `inode::exists`, `file::read` (which yields an empty
vector for an unreadable or missing file), and `vfs::fs::file::open`
success. -/
structure Env where
  sysDir : Option String
  saveDir : Option String
  configPath : String
  localPath : String
  pathExists : String → Bool
  readFile : String → Bytes
  diskOpen : String → Mode → Bool

/-- Probe one optional frontend directory `d` for `{d, "/higan/", name}`,
as both locate functions do. -/
def tryDir (env : Env) (d : Option String) (name : String) : Option String :=
  match d with
  | some dir =>
    if env.pathExists (dir ++ "/higan/" ++ name) then
      some (dir ++ "/higan/" ++ name)
    else
      none
  | none => none

/-- The shared tail of both locate functions: `{Path::config(), "higan/",
name}` when it exists, otherwise the created local fallback
`{Path::local(), "higan/", name}` (returned unconditionally). -/
def configOrLocal (env : Env) (name : String) : String :=
  if env.pathExists (env.configPath ++ "higan/" ++ name) then
    env.configPath ++ "higan/" ++ name
  else
    env.localPath ++ "higan/" ++ name

/-- `locate` from the SuperFamicom-only variant of libretro.cpp: system
directory, then save directory, then config, then local fallback. -/
def locate (env : Env) (name : String) : String :=
  match tryDir env env.sysDir name with
  | some l => l
  | none =>
    match tryDir env env.saveDir name with
    | some l => l
    | none => configOrLocal env name

/-- `locate_libretro` from the icarus-based variant of libretro.cpp:
system directory, then config, then local fallback (no save-directory
tier). -/
def locate_libretro (env : Env) (name : String) : String :=
  match tryDir env env.sysDir name with
  | some l => l
  | none => configOrLocal env name

/-- The path resolver as the specification words it (§4.1 PathResolver):
search exactly four tiers in order — frontend system-assets directory,
frontend save/user directory, subsystem configuration directory — and
return the first existing candidate, falling back unconditionally to the
local fallback directory. Stated independently of the code for the
refinement comparison in claim C5. -/
def resolve_spec (env : Env) (name : String) : String :=
  match ((match env.sysDir with
          | some d => [d ++ "/higan/" ++ name]
          | none => []) ++
         (match env.saveDir with
          | some d => [d ++ "/higan/" ++ name]
          | none => []) ++
         [env.configPath ++ "higan/" ++ name]).find? env.pathExists with
  | some p => p
  | none => env.localPath ++ "higan/" ++ name

theorem locate_eq_resolve_spec (env : Env) (name : String) :
    locate env name = resolve_spec env name := by
  unfold locate resolve_spec tryDir configOrLocal
  rcases env.sysDir with _ | s <;> rcases env.saveDir with _ | v
  · by_cases hc : env.pathExists (env.configPath ++ "higan/" ++ name) <;>
      simp [List.find?, hc]
  · by_cases hv1 : env.pathExists (v ++ "/higan/" ++ name) <;>
      by_cases hc : env.pathExists (env.configPath ++ "higan/" ++ name) <;>
      simp [List.find?, hv1, hc]
  · by_cases hs1 : env.pathExists (s ++ "/higan/" ++ name) <;>
      by_cases hc : env.pathExists (env.configPath ++ "higan/" ++ name) <;>
      simp [List.find?, hs1, hc]
  · by_cases hs1 : env.pathExists (s ++ "/higan/" ++ name) <;>
      by_cases hv1 : env.pathExists (v ++ "/higan/" ++ name) <;>
      by_cases hc : env.pathExists (env.configPath ++ "higan/" ++ name) <;>
      simp [List.find?, hs1, hv1, hc]

/-- The path resolver of the icarus-based variant as the specification's
four-tier wording would demand of it, restricted to the three tiers the
code actually probes (system-assets, configuration, fallback); used for
the amended claim C5. -/
def resolve_spec_libretro (env : Env) (name : String) : String :=
  match ((match env.sysDir with
          | some d => [d ++ "/higan/" ++ name]
          | none => []) ++
         [env.configPath ++ "higan/" ++ name]).find? env.pathExists with
  | some p => p
  | none => env.localPath ++ "higan/" ++ name

theorem locate_libretro_eq_resolve_spec_libretro (env : Env) (name : String) :
    locate_libretro env name = resolve_spec_libretro env name := by
  unfold locate_libretro resolve_spec_libretro tryDir configOrLocal
  rcases env.sysDir with _ | s
  · by_cases hc : env.pathExists (env.configPath ++ "higan/" ++ name) <;>
      simp [List.find?, hc]
  · by_cases hs1 : env.pathExists (s ++ "/higan/" ++ name) <;>
      by_cases hc : env.pathExists (env.configPath ++ "higan/" ++ name) <;>
      simp [List.find?, hs1, hc]

/-- Concrete environment refuting claim C5 for `locate_libretro`: the
frontend declares both a system directory and a save directory, and the
requested file exists only in the save directory. -/
def envC5 : Env :=
  { sysDir := some "sys"
    saveDir := some "save"
    configPath := "cfg/"
    localPath := "loc/"
    pathExists := fun p => p == "save/higan/boot.rom"
    readFile := fun _ => []
    diskOpen := fun _ _ => false }

/-- C5 counterexample: `locate_libretro` does not search the
save/user-directory tier, so with `boot.rom` present only in the save
directory it returns the created local fallback path instead of the save
path that the claimed four-tier search (`resolve_spec`) would return. -/
theorem C5_counterexample :
    locate_libretro envC5 "boot.rom" = "loc/higan/boot.rom" ∧
    resolve_spec envC5 "boot.rom" = "save/higan/boot.rom" ∧
    locate_libretro envC5 "boot.rom" ≠ resolve_spec envC5 "boot.rom" := by
  refine ⟨by decide, by decide, by decide⟩

/-- C5 (amended): `locate` (the SuperFamicom-only variant) searches
exactly the four claimed tiers in order — system-assets directory, save
directory, configuration directory, local fallback — returning the first
existing candidate; `locate_libretro` (the icarus-based variant) searches
only three tiers, omitting the save-directory tier; and for both
functions a file present in the frontend's system-assets directory takes
precedence over every other tier, in particular over the fallback
directory. -/
theorem C5_path_resolver :
    (∀ env name, locate env name = resolve_spec env name) ∧
    (∀ env name, locate_libretro env name = resolve_spec_libretro env name) ∧
    (∀ env name d, env.sysDir = some d →
      env.pathExists (d ++ "/higan/" ++ name) = true →
      locate env name = d ++ "/higan/" ++ name ∧
      locate_libretro env name = d ++ "/higan/" ++ name) := by
  refine ⟨locate_eq_resolve_spec, locate_libretro_eq_resolve_spec_libretro, ?_⟩
  intro env name d hd hex
  constructor <;> simp [locate, locate_libretro, tryDir, hd, hex]

/-- Environment witnessing the hypotheses of the amended claim C5. -/
def envC5w : Env :=
  { sysDir := some "sys"
    saveDir := none
    configPath := "cfg/"
    localPath := "loc/"
    pathExists := fun p => p == "sys/higan/a"
    readFile := fun _ => []
    diskOpen := fun _ _ => false }

theorem C5_path_resolver_witness :
    locate envC5w "a" = "sys/higan/a" ∧ locate_libretro envC5w "a" = "sys/higan/a" :=
  C5_path_resolver.2.2 envC5w "a" "sys" rfl (by decide)

/-
SerializeCache: retro_serialize_size / retro_serialize / the invalidating
entry points retro_run, retro_unserialize, retro_cheat_reset and
retro_cheat_set. The engine is abstracted as an `Engine` record over a
Nat-coded machine state; `Program::cached_serialize` and
`Program::has_cached_serialize` form the `CacheState`. Each query also
reports how many times it invoked `Emulator::Interface::serialize`. -/

structure Engine where
  serialize : Nat → Bytes
  run : Nat → Nat
  unserialize : Bytes → Nat → Bool × Nat

structure CacheState where
  emu : Nat
  cached : Bytes
  has_cached : Bool

/-- The shared `if (!program->has_cached_serialize) { cached_serialize =
serialize(); has_cached_serialize = true; }` prelude of both queries,
together with the number of engine serialize invocations it performed. -/
def ensure_cached (E : Engine) (st : CacheState) : CacheState × Nat :=
  if st.has_cached then (st, 0)
  else ({ emu := st.emu, cached := E.serialize st.emu, has_cached := true }, 1)

structure SizeResult where
  size : Nat
  st : CacheState
  calls : Nat

/-- `retro_serialize_size`. -/
def retro_serialize_size (E : Engine) (st : CacheState) : SizeResult :=
  let p := ensure_cached E st
  { size := p.1.cached.length, st := p.1, calls := p.2 }

structure CopyResult where
  ok : Bool
  buf : Bytes
  st : CacheState
  calls : Nat

/-- `retro_serialize(data, size)`: recompute the cache if invalid, fail on
a size mismatch, otherwise memcpy the cached bytes into the caller's
buffer. -/
def retro_serialize (E : Engine) (st : CacheState) (buf : Bytes) (size : Nat) :
    CopyResult :=
  let p := ensure_cached E st
  if p.1.cached.length ≠ size then
    { ok := false, buf := buf, st := p.1, calls := p.2 }
  else
    { ok := true, buf := p.1.cached, st := p.1, calls := p.2 }

/-- `retro_run`: clears `has_cached_serialize`, then runs the engine one
step. -/
def retro_run_cache (E : Engine) (st : CacheState) : CacheState :=
  { emu := E.run st.emu, cached := st.cached, has_cached := false }

/-- `retro_unserialize`: clears `has_cached_serialize`, then hands the
bytes to the engine. -/
def retro_unserialize_cache (E : Engine) (d : Bytes) (st : CacheState) :
    Bool × CacheState :=
  let r := E.unserialize d st.emu
  (r.1, { emu := r.2, cached := st.cached, has_cached := false })

/-- `retro_cheat_reset`. -/
def retro_cheat_reset_cache (st : CacheState) : CacheState :=
  { st with has_cached := false }

/-- `retro_cheat_set`. -/
def retro_cheat_set_cache (index : Nat) (enabled : Bool) (code : String)
    (st : CacheState) : CacheState :=
  { st with has_cached := false }

/-- The invalidating events named by the specification: an execution
step, a state-load, and the two cheat-table mutations. -/
inductive CEvent where
  | step
  | stateLoad (d : Bytes)
  | cheatClear
  | cheatPoke (i : Nat) (enabled : Bool) (code : String)

def applyEvent (E : Engine) : CEvent → CacheState → CacheState
  | .step, st => retro_run_cache E st
  | .stateLoad d, st => (retro_unserialize_cache E d st).2
  | .cheatClear, st => retro_cheat_reset_cache st
  | .cheatPoke i e c, st => retro_cheat_set_cache i e c st

/-- Cache coherence: whenever the validity flag is set, the cached bytes
are exactly what the engine would serialize to now. -/
def cacheCoherent (E : Engine) (st : CacheState) : Prop :=
  st.has_cached = true → st.cached = E.serialize st.emu

theorem cacheCoherent_ensure (E : Engine) (st : CacheState)
    (h : cacheCoherent E st) : cacheCoherent E (ensure_cached E st).1 := by
  unfold cacheCoherent ensure_cached at *
  by_cases hc : st.has_cached <;> simp [hc, h]

theorem cacheCoherent_event (E : Engine) (ev : CEvent) (st : CacheState) :
    cacheCoherent E (applyEvent E ev st) := by
  cases ev <;>
    simp [cacheCoherent, applyEvent, retro_run_cache, retro_unserialize_cache,
      retro_cheat_reset_cache, retro_cheat_set_cache]

/-- C3: after `retro_serialize_size` returns a size `s` from a coherent
state, an immediately following `retro_serialize` with exactly `s`
succeeds, fills the buffer with the bytes a direct engine serialize call
would produce at that point, and the engine's serialize routine ran at
most once across the two calls. -/
theorem C3_query_then_copy (E : Engine) (st : CacheState) (buf : Bytes)
    (hinv : cacheCoherent E st) :
    (retro_serialize E (retro_serialize_size E st).st buf
        (retro_serialize_size E st).size).ok = true ∧
    (retro_serialize E (retro_serialize_size E st).st buf
        (retro_serialize_size E st).size).buf = E.serialize st.emu ∧
    (retro_serialize_size E st).calls +
      (retro_serialize E (retro_serialize_size E st).st buf
        (retro_serialize_size E st).size).calls ≤ 1 := by
  unfold retro_serialize retro_serialize_size ensure_cached cacheCoherent at *
  by_cases hc : st.has_cached <;> simp [hc, hinv]

/-- Engine and state used to witness the hypotheses of C3, C4 and C6. -/
def engine0 : Engine :=
  { serialize := fun n => [n % 256, 7]
    run := fun n => n + 1
    unserialize := fun d n => (true, n + d.length) }

def cache0 : CacheState :=
  { emu := 5, cached := [], has_cached := false }

theorem C3_query_then_copy_witness :
    (retro_serialize engine0 (retro_serialize_size engine0 cache0).st [9]
        (retro_serialize_size engine0 cache0).size).ok = true ∧
    (retro_serialize engine0 (retro_serialize_size engine0 cache0).st [9]
        (retro_serialize_size engine0 cache0).size).buf
      = engine0.serialize cache0.emu ∧
    (retro_serialize_size engine0 cache0).calls +
      (retro_serialize engine0 (retro_serialize_size engine0 cache0).st [9]
        (retro_serialize_size engine0 cache0).size).calls ≤ 1 :=
  C3_query_then_copy engine0 cache0 [9] (fun h => by simp [cache0] at h)

/-- C4: a `retro_serialize` call whose requested size differs from the
size of the (possibly just recomputed) cached snapshot fails and leaves
the caller's buffer untouched — nothing is truncated or padded. -/
theorem C4_size_mismatch (E : Engine) (st : CacheState) (buf : Bytes) (size : Nat)
    (h : size ≠ ((ensure_cached E st).1).cached.length) :
    (retro_serialize E st buf size).ok = false ∧
    (retro_serialize E st buf size).buf = buf := by
  unfold retro_serialize
  have h' : ((ensure_cached E st).1).cached.length ≠ size := fun e => h e.symm
  simp [h']

theorem C4_size_mismatch_witness :
    (retro_serialize engine0 cache0 [9] 3).ok = false ∧
    (retro_serialize engine0 cache0 [9] 3).buf = [9] :=
  C4_size_mismatch engine0 cache0 [9] 3 (by decide)

/-- C6: every invalidating event — an execution step, a state-load, or a
cheat-table mutation — clears the validity flag, so the next
`retro_serialize_size` or `retro_serialize` invokes the engine's
serialize routine exactly once and answers from the post-event engine
state, never from the previously cached snapshot. -/
theorem C6_invalidation (E : Engine) (ev : CEvent) (st : CacheState)
    (buf : Bytes) (size : Nat) :
    (applyEvent E ev st).has_cached = false ∧
    (retro_serialize_size E (applyEvent E ev st)).calls = 1 ∧
    (retro_serialize_size E (applyEvent E ev st)).size
      = (E.serialize (applyEvent E ev st).emu).length ∧
    (retro_serialize E (applyEvent E ev st) buf size).calls = 1 ∧
    (size = (E.serialize (applyEvent E ev st).emu).length →
      (retro_serialize E (applyEvent E ev st) buf size).ok = true ∧
      (retro_serialize E (applyEvent E ev st) buf size).buf
        = E.serialize (applyEvent E ev st).emu) := by
  have hflag : (applyEvent E ev st).has_cached = false := by
    cases ev <;>
      simp [applyEvent, retro_run_cache, retro_unserialize_cache,
        retro_cheat_reset_cache, retro_cheat_set_cache]
  refine ⟨hflag, ?_, ?_, ?_, ?_⟩
  · simp [retro_serialize_size, ensure_cached, hflag]
  · simp [retro_serialize_size, ensure_cached, hflag]
  · by_cases hsz : (E.serialize (applyEvent E ev st).emu).length = size <;>
      simp [retro_serialize, ensure_cached, hflag, hsz]
  · intro hsz
    simp [retro_serialize, ensure_cached, hflag, hsz]

theorem C6_invalidation_witness :
    (retro_serialize engine0 (applyEvent engine0 .step cache0) [] 2).ok = true ∧
    (retro_serialize engine0 (applyEvent engine0 .step cache0) [] 2).buf
      = engine0.serialize (applyEvent engine0 .step cache0).emu :=
  (C6_invalidation engine0 .step cache0 [] 2).2.2.2.2 (by decide)

/-
ContentOpenDispatcher: Program::open of the icarus-based variant
(libretro.cpp) together with load_builtin_system_file (libretro-sfc.cpp).
-/

/-- `SuperFamicom::ID::System` (`BackendSpecific::system_id`): the first
enumerator of the medium id enumeration. -/
def system_id : Nat := 0

/-- String contents as bytes (the sources only store ASCII text here). -/
def strBytes (s : String) : Bytes :=
  s.data.map Char.toNat

/-- The built-in system manifest baked into libretro-sfc.cpp (the raw
string literal begins and ends with a newline). -/
def builtin_manifest : String :=
  "\nsystem name:Super Famicom\n  cpu version=2\n    ram name=work.ram size=0x20000 volatile\n  smp\n    rom name=ipl.rom size=64\n  ppu1 version=1\n    ram name=video.ram size=0x8000 volatile\n    ram name=object.ram size=544 volatile\n  ppu2 version=3\n    ram name=palette.ram size=512 volatile\n  dsp\n    ram name=apu.ram size=0x10000 volatile\n"

/-- The 64-byte SMP boot ROM baked into libretro-sfc.cpp. -/
def ipl_rom : Bytes :=
  [0xcd, 0xef, 0xbd, 0xe8, 0x00, 0xc6, 0x1d, 0xd0, 0xfc, 0x8f, 0xaa, 0xf4,
   0x8f, 0xbb, 0xf5, 0x78, 0xcc, 0xf4, 0xd0, 0xfb, 0x2f, 0x19, 0xeb, 0xf4,
   0xd0, 0xfc, 0x7e, 0xf4, 0xd0, 0x0b, 0xe4, 0xf5, 0xcb, 0xf4, 0xd7, 0x00,
   0xfc, 0xd0, 0xf3, 0xab, 0x01, 0x10, 0xef, 0x7e, 0xf4, 0x10, 0xeb, 0xba,
   0xf6, 0xda, 0x00, 0xba, 0xf4, 0xc4, 0xf4, 0xdd, 0x5d, 0xd0, 0xdb, 0x1f,
   0x00, 0x00, 0xc0, 0xff]

/-- `load_builtin_system_file` (libretro-sfc.cpp). The C++ function is
non-void yet has no return statement after its two `if` branches; the
fall-through for any other name is modelled as `none` (an absent
handle). -/
def load_builtin_system_file (name : String) : Option Bytes :=
  if name = "manifest.bml" then
    some (strBytes builtin_manifest)
  else if name = "ipl.rom" then
    some ipl_rom
  else
    none

/-- The `Program` members that `Program::open` reads or writes:
`medium_paths`, `loaded_manifest`, `fake_game_path`, the icarus
`imported_files` store, and the sticky `failed` flag. -/
structure PState where
  medium_paths : Nat → String
  loaded_manifest : String
  fake_game_path : String
  imported_files : FileMap
  failed : Bool

/-- A `vfs::shared::file` result: an in-memory handle, a disk handle
opened at a path in a mode, or the empty handle `{}`. -/
inductive OpenResult where
  | memory (bytes : Bytes)
  | disk (path : String) (mode : Mode)
  | empty

/-- Steps 4-6 of Program::open: compose `{path(id), name}`, re-resolve
through locate_libretro when reading a non-existent path, try the disk,
and on a required failure set the sticky `failed` flag. -/
def disk_tier (env : Env) (st : PState) (id : Nat) (name : String)
    (mode : Mode) (required : Bool) : OpenResult × PState :=
  let p0 := st.medium_paths id ++ name
  let p := if mode = Mode.read ∧ env.pathExists p0 = false then
             locate_libretro env name
           else p0
  if env.diskOpen p mode then (OpenResult.disk p mode, st)
  else if required then (OpenResult.empty, { st with failed := true })
  else (OpenResult.empty, st)

/-- `Program::open(id, name, mode, required)` of the icarus-based
variant: session manifest, then built-in system files, then the icarus
imported-file store, then disk. -/
def program_open (env : Env) (st : PState) (id : Nat) (name : String)
    (mode : Mode) (required : Bool) : OpenResult × PState :=
  if name = "manifest.bml" ∧ id ≠ system_id ∧ st.loaded_manifest ≠ "" then
    (OpenResult.memory (strBytes st.loaded_manifest), st)
  else
    match (if id = system_id then load_builtin_system_file name else none) with
    | some b => (OpenResult.memory b, st)
    | none =>
      match FileMap.find st.imported_files name with
      | some f => (OpenResult.memory f, st)
      | none => disk_tier env st id name mode required

/-- The dispatcher as claim C2 words it: a strict priority list —
session manifest, built-in table, virtual store — whose first match wins,
followed by path composition with conditional re-resolution and a disk
open. Stated independently for the refinement comparison in claim C2. -/
def open_spec (env : Env) (st : PState) (id : Nat) (name : String)
    (mode : Mode) (required : Bool) : OpenResult × PState :=
  let tier1 : Option OpenResult :=
    if name = "manifest.bml" ∧ id ≠ system_id ∧ st.loaded_manifest ≠ "" then
      some (OpenResult.memory (strBytes st.loaded_manifest))
    else none
  let tier2 : Option OpenResult :=
    if id = system_id then
      Option.map OpenResult.memory (load_builtin_system_file name)
    else none
  let tier3 : Option OpenResult :=
    Option.map OpenResult.memory (FileMap.find st.imported_files name)
  match tier1.orElse (fun _ => tier2.orElse (fun _ => tier3)) with
  | some r => (r, st)
  | none =>
    let composed := st.medium_paths id ++ name
    let resolved := if mode = Mode.read ∧ ¬ env.pathExists composed then
                      locate_libretro env name
                    else composed
    if env.diskOpen resolved mode then (OpenResult.disk resolved mode, st)
    else if required then (OpenResult.empty, { st with failed := true })
    else (OpenResult.empty, st)

/-- C2: Program::open resolves every request in the claimed strict
priority order — in-memory session manifest (non-system slot, manifest
supplied), built-in constant table (system slot), virtual store of
imported files, then the slot-path composition re-resolved through the
path resolver only for a read of a non-existent path, and finally a disk
open in the requested mode — first match winning. -/
theorem C2_dispatch_order (env : Env) (st : PState) (id : Nat) (name : String)
    (mode : Mode) (required : Bool) :
    program_open env st id name mode required
      = open_spec env st id name mode required := by
  unfold program_open open_spec disk_tier
  by_cases h1 : name = "manifest.bml" ∧ id ≠ system_id ∧ st.loaded_manifest ≠ ""
  · simp [h1, Option.orElse]
  · simp only [if_neg h1]
    by_cases h2 : id = system_id
    · cases hb : load_builtin_system_file name with
      | some b => simp [h2, hb, Option.orElse]
      | none =>
        cases hf : FileMap.find st.imported_files name with
        | some f => simp [h2, hb, hf, Option.orElse]
        | none => simp [h2, hb, hf, Option.orElse]
    · cases hf : FileMap.find st.imported_files name with
      | some f => simp [h2, hf, Option.orElse]
      | none => simp [h2, hf, Option.orElse]

/-- C9: the built-in constant file table yields a defined in-memory
handle exactly for the names `manifest.bml` and `ipl.rom`; for every
other name the C++ function body ends without a return statement, so no
defined handle exists (modelled as `none`, which lets the dispatcher fall
to its later tiers). -/
theorem C9_builtin_names (name : String) :
    (load_builtin_system_file name).isSome = true ↔
      name = "manifest.bml" ∨ name = "ipl.rom" := by
  unfold load_builtin_system_file
  by_cases h1 : name = "manifest.bml" <;> by_cases h2 : name = "ipl.rom" <;>
    simp [h1, h2]

theorem C9_builtin_names_witness :
    (load_builtin_system_file "ipl.rom").isSome = true :=
  (C9_builtin_names "ipl.rom").mpr (Or.inr rfl)

/-- Environment and state for the C8 counterexample: slot 1 (not the
system slot), no session manifest, nothing imported, disk open succeeds
only at the verbatim composed path `base/save.ram`. -/
def envC8 : Env :=
  { sysDir := none
    saveDir := none
    configPath := "cfg/"
    localPath := "loc/"
    pathExists := fun _ => false
    readFile := fun _ => []
    diskOpen := fun p _ => p == "base/save.ram" }

def stC8 : PState :=
  { medium_paths := fun _ => "base/"
    loaded_manifest := ""
    fake_game_path := ""
    imported_files := []
    failed := false }

/-- C8 counterexample: with a non-system slot and no manifest loaded, a
request for `save.ram` reaches the disk tier at the path composed from
the UNCHANGED name — `base/` ++ `save.ram` — so no rewrite to a shorter
extension ever happens before path composition. -/
theorem C8_counterexample :
    program_open envC8 stC8 1 "save.ram" Mode.write true
      = (OpenResult.disk "base/save.ram" Mode.write, stC8) := by
  simp [program_open, disk_tier, envC8, stC8, system_id,
    load_builtin_system_file, FileMap.find]

/-- C8 (amended): Program::open applies no naming normalization at all;
whenever the first three tiers do not match — in particular for
`save.ram` on a non-system slot with no manifest loaded — the request
falls through to the disk tier with the requested name passed through
verbatim into the composed path. -/
theorem C8_no_rename (env : Env) (st : PState) (id : Nat) (name : String)
    (mode : Mode) (required : Bool)
    (h1 : st.loaded_manifest = "")
    (h2 : id ≠ system_id)
    (h3 : FileMap.find st.imported_files name = none) :
    program_open env st id name mode required
      = disk_tier env st id name mode required := by
  unfold program_open
  have hn : ¬ (name = "manifest.bml" ∧ id ≠ system_id ∧ st.loaded_manifest ≠ "") := by
    simp [h1]
  rw [if_neg hn]
  simp [h2, h3]

theorem C8_no_rename_witness :
    program_open envC8 stC8 1 "save.ram" Mode.read true
      = disk_tier envC8 stC8 1 "save.ram" Mode.read true :=
  C8_no_rename envC8 stC8 1 "save.ram" Mode.read true rfl (by decide) rfl

/-
ImportCoordinator: LibretroIcarus::import_rom. The icarus content
detector is abstracted as a `Detector`: `imp name store` is the result of
`Icarus::import(name)` when the virtual store holds `store` (the detector
reads file contents exclusively through the overridden
`LibretroIcarus::read`, i.e. through the store), and `missingOf name
store` is the ordered list `missing()` reports after that failed
attempt. -/

structure Detector where
  imp : String → FileMap → Bool
  missingOf : String → FileMap → List String

/-- `LibretroIcarus::write(filename, data, size)`: stores the bytes under
`Location::file(filename)` in `imported_files`, overwriting. -/
def icarus_write (m : FileMap) (filename : String) (data : Bytes) : FileMap :=
  FileMap.insert m (locationFile filename) data

/-- Outcome of the missing-file loop. `undef` marks the C++ undefined
behaviour of `imported_files.find(fake_path).get()` when the key is
absent (possible only when `fake_path` is not its own basename). -/
inductive LoopResult where
  | undef
  | aborted (st : FileMap)
  | done (st : FileMap)

/-- The body of import_rom's missing-file loop: for each reported name in
order, resolve it through locate_libretro, read it from disk
(`file::read` yields `[]` for an unreadable file, and nall's boolean test
on the vector is emptiness), abort on an empty read, otherwise append the
bytes to the buffer stored under the synthetic name. -/
def resolve_missing (env : Env) (fake_path : String) :
    List String → FileMap → LoopResult
  | [], st => LoopResult.done st
  | rom :: rest, st =>
    match FileMap.find st fake_path with
    | none => LoopResult.undef
    | some fileBytes =>
      let data := env.readFile (locate_libretro env rom)
      if data = [] then LoopResult.aborted st
      else
        resolve_missing env fake_path rest
          (FileMap.insert st fake_path (fileBytes ++ data))

inductive ImportResult where
  | undef
  | res (ok : Bool) (store : FileMap)

/-- `LibretroIcarus::import_rom(fake_path, data, size)`. Also returns the
trace of `(name, store)` pairs at which `Icarus::import` was invoked, in
order. `prev` is whatever `imported_files` held before the call; the
leading `icarus.reset()` discards it. -/
def import_rom (D : Detector) (env : Env) (fake_path : String) (rom : Bytes)
    (prev : FileMap) : ImportResult × List (String × FileMap) :=
  let st1 := icarus_write [] fake_path rom
  if D.imp fake_path st1 then
    (ImportResult.res true st1, [(fake_path, st1)])
  else
    let ms := D.missingOf fake_path st1
    if ms = [] then (ImportResult.res false st1, [(fake_path, st1)])
    else
      match resolve_missing env fake_path ms st1 with
      | LoopResult.undef => (ImportResult.undef, [(fake_path, st1)])
      | LoopResult.aborted st => (ImportResult.res false st, [(fake_path, st1)])
      | LoopResult.done st =>
        (ImportResult.res (D.imp fake_path st) st, [(fake_path, st1), (fake_path, st)])

/-- The bytes of the reported missing files, concatenated in report
order, each read from the location the path resolver assigns it. -/
def concatReads (env : Env) (ms : List String) : Bytes :=
  ms.foldr (fun r acc => env.readFile (locate_libretro env r) ++ acc) []

theorem resolve_missing_all_readable (env : Env) (fake : String)
    (ms : List String) (st : FileMap) (b : Bytes)
    (hfind : FileMap.find st fake = some b)
    (hall : ∀ r ∈ ms, env.readFile (locate_libretro env r) ≠ []) :
    ∃ st', resolve_missing env fake ms st = LoopResult.done st' ∧
      FileMap.find st' fake = some (b ++ concatReads env ms) := by
  induction ms generalizing st b with
  | nil => exact ⟨st, rfl, by simpa [concatReads] using hfind⟩
  | cons r rest ih =>
    have hr : env.readFile (locate_libretro env r) ≠ [] := hall r (by simp)
    have hrest : ∀ x ∈ rest, env.readFile (locate_libretro env x) ≠ [] :=
      fun x hx => hall x (by simp [hx])
    obtain ⟨st', h1, h2⟩ :=
      ih (FileMap.insert st fake (b ++ env.readFile (locate_libretro env r)))
        (b ++ env.readFile (locate_libretro env r))
        (FileMap.find_insert_self _ _ _) hrest
    refine ⟨st', ?_, ?_⟩
    · simp only [resolve_missing, hfind]
      rw [if_neg hr]
      exact h1
    · rw [h2]
      simp [concatReads, List.append_assoc]

theorem resolve_missing_unreadable (env : Env) (fake : String)
    (ms : List String) (st : FileMap) (b : Bytes)
    (hfind : FileMap.find st fake = some b)
    (hbad : ∃ r ∈ ms, env.readFile (locate_libretro env r) = []) :
    ∃ st', resolve_missing env fake ms st = LoopResult.aborted st' := by
  induction ms generalizing st b with
  | nil => simp at hbad
  | cons r rest ih =>
    by_cases hr : env.readFile (locate_libretro env r) = []
    · refine ⟨st, ?_⟩
      simp only [resolve_missing, hfind]
      rw [if_pos hr]
    · have hbad' : ∃ x ∈ rest, env.readFile (locate_libretro env x) = [] := by
        rcases hbad with ⟨x, hx, hxe⟩
        rcases List.mem_cons.mp hx with hxr | hxrest
        · exact absurd (hxr ▸ hxe) hr
        · exact ⟨x, hxrest, hxe⟩
      obtain ⟨st', h⟩ :=
        ih (FileMap.insert st fake (b ++ env.readFile (locate_libretro env r)))
          (b ++ env.readFile (locate_libretro env r))
          (FileMap.find_insert_self _ _ _) hbad'
      refine ⟨st', ?_⟩
      simp only [resolve_missing, hfind]
      rw [if_neg hr]
      exact h

/-- C1: for an import whose first detector attempt fails (the synthetic
name being its own basename, as the only call site's `game.<type>`
always is): an empty missing-file report makes the coordinator fail;
when every reported missing file resolves to a readable, non-empty disk
file, the buffer stored under the synthetic name and handed to the
second — and exactly second, per the trace — import attempt is the
primary bytes followed by each missing file's bytes in report order, and
that second attempt's result is the coordinator's result; and when any
reported missing file reads back empty, the coordinator fails without a
second attempt. -/
theorem C1_import_rom (D : Detector) (env : Env) (fake : String) (rom : Bytes)
    (prev : FileMap)
    (hbase : locationFile fake = fake)
    (hfail : D.imp fake (icarus_write [] fake rom) = false) :
    (D.missingOf fake (icarus_write [] fake rom) = [] →
      import_rom D env fake rom prev
        = (ImportResult.res false (icarus_write [] fake rom),
           [(fake, icarus_write [] fake rom)])) ∧
    ((∀ r ∈ D.missingOf fake (icarus_write [] fake rom),
        env.readFile (locate_libretro env r) ≠ []) →
      D.missingOf fake (icarus_write [] fake rom) ≠ [] →
      ∃ final,
        FileMap.find final fake
          = some (rom ++ concatReads env
              (D.missingOf fake (icarus_write [] fake rom))) ∧
        import_rom D env fake rom prev
          = (ImportResult.res (D.imp fake final) final,
             [(fake, icarus_write [] fake rom), (fake, final)])) ∧
    ((∃ r ∈ D.missingOf fake (icarus_write [] fake rom),
        env.readFile (locate_libretro env r) = []) →
      ∃ st', import_rom D env fake rom prev
        = (ImportResult.res false st', [(fake, icarus_write [] fake rom)])) := by
  have hfind : FileMap.find (icarus_write [] fake rom) fake = some rom := by
    unfold icarus_write
    rw [hbase]
    exact FileMap.find_insert_self _ _ _
  refine ⟨?_, ?_, ?_⟩
  · intro hms
    unfold import_rom
    rw [if_neg (by simp [hfail])]
    rw [if_pos hms]
  · intro hall hne
    obtain ⟨final, h1, h2⟩ :=
      resolve_missing_all_readable env fake
        (D.missingOf fake (icarus_write [] fake rom))
        (icarus_write [] fake rom) rom hfind hall
    refine ⟨final, h2, ?_⟩
    unfold import_rom
    rw [if_neg (by simp [hfail])]
    rw [if_neg hne, h1]
  · intro hbad
    obtain ⟨st', h⟩ :=
      resolve_missing_unreadable env fake
        (D.missingOf fake (icarus_write [] fake rom))
        (icarus_write [] fake rom) rom hfind hbad
    have hne : D.missingOf fake (icarus_write [] fake rom) ≠ [] := by
      rcases hbad with ⟨x, hx, _⟩
      intro he
      rw [he] at hx
      simp at hx
    refine ⟨st', ?_⟩
    unfold import_rom
    rw [if_neg (by simp [hfail])]
    rw [if_neg hne, h]

/-- Detector and environment witnessing C1's hypotheses: a 2-byte
primary whose import succeeds once the single missing file `aux` (one
byte, found in the fallback directory) has been appended. -/
def detC1 : Detector :=
  { imp := fun n m => decide (FileMap.find m n = some [1, 2, 9])
    missingOf := fun _ _ => ["aux"] }

def envC1 : Env :=
  { sysDir := none
    saveDir := none
    configPath := "cfg/"
    localPath := "loc/"
    pathExists := fun _ => false
    readFile := fun p => if p == "loc/higan/aux" then [9] else []
    diskOpen := fun _ _ => false }

theorem C1_import_rom_witness :
    ∃ final,
      FileMap.find final "game.sfc"
        = some ([1, 2] ++ concatReads envC1
            (detC1.missingOf "game.sfc" (icarus_write [] "game.sfc" [1, 2]))) ∧
      import_rom detC1 envC1 "game.sfc" [1, 2] []
        = (ImportResult.res (detC1.imp "game.sfc" final) final,
           [("game.sfc", icarus_write [] "game.sfc" [1, 2]),
            ("game.sfc", final)]) :=
  (C1_import_rom detC1 envC1 "game.sfc" [1, 2] [] (by decide)
    (by decide)).2.1 (by decide) (by decide)

/-- C10: import_rom begins by resetting the virtual store and inserting
the primary bytes under the synthetic name before any import attempt:
the store the detector sees at the first attempt is exactly the
singleton of the synthetic name, and the whole call is independent of
whatever a previous (possibly failed) import left in the store. -/
theorem C10_reset_before_import (D : Detector) (env : Env) (fake : String)
    (rom : Bytes) (prev prev' : FileMap) :
    (import_rom D env fake rom prev).2.head?
        = some (fake, icarus_write [] fake rom) ∧
    icarus_write [] fake rom = [(locationFile fake, rom)] ∧
    import_rom D env fake rom prev = import_rom D env fake rom prev' := by
  refine ⟨?_, rfl, rfl⟩
  unfold import_rom
  by_cases h : D.imp fake (icarus_write [] fake rom) <;> simp [h]
  by_cases hm : D.missingOf fake (icarus_write [] fake rom) = [] <;> simp [hm]
  cases hr : resolve_missing env fake (D.missingOf fake (icarus_write [] fake rom))
      (icarus_write [] fake rom) <;> simp [hr]

/-
retro_load_game (icarus-based variant), modelled to the depth the
failure-flag contract requires. External collaborator outcomes — the
frontend's pixel-format negotiation, the medium lookup, the save-path
computed from frontend directories, and the engine's load results
together with the open requests `Emulator::Interface::load` issues — are
explicit parameters in `LoadArgs`.
-/

structure OpenReq where
  id : Nat
  name : String
  mode : Mode
  required : Bool

structure LoadArgs where
  pixel_ok : Bool
  medium_ok : Bool
  medium_id : Nat
  medium_name : String
  medium_type : String
  loading_manifest : Bool
  game_manifest : String
  game_bytes : Bytes
  game_path : String
  emu_requests : List OpenReq
  emu_load_ok : Bool
  emu_loaded_ok : Bool

/-- The open requests the engine issues during `emulator->load(id)`,
dispatched through Program::open in order. -/
def do_opens (env : Env) (st : PState) : List OpenReq → PState
  | [] => st
  | r :: rest =>
    do_opens env (program_open env st r.id r.name r.mode r.required).2 rest

/-- The tail of retro_load_game from `emulator->load` on: run the
engine's load (performing its opens), then check its result, then the
sticky failed flag, then `loaded()`. -/
def load_rest (env : Env) (A : LoadArgs) (st : PState) : Bool × PState :=
  let st' := do_opens env st A.emu_requests
  if A.emu_load_ok = false then (false, st')
  else if st'.failed then (false, st')
  else if A.emu_loaded_ok = false then (false, st')
  else (true, st')

/-- The state updates retro_load_game performs before any engine load:
the system and medium slot paths, the reset-then-maybe-set of
`loaded_manifest` and `fake_game_path`. The `failed` flag is copied
through untouched. -/
def load_stage (env : Env) (A : LoadArgs) (st : PState) : PState :=
  { medium_paths := fun j =>
      if j = system_id then locate_libretro env (A.medium_name ++ ".sys/")
      else if j = A.medium_id then A.game_path
      else st.medium_paths j
    loaded_manifest := if A.loading_manifest then A.game_manifest else ""
    fake_game_path :=
      if A.loading_manifest then "" else "game." ++ A.medium_type
    imported_files := st.imported_files
    failed := st.failed }

/-- `retro_load_game(game)`. Note that nothing in it writes `failed :=
false`: the flag is only ever initialised by the Program constructor. -/
def retro_load_game (D : Detector) (env : Env) (A : LoadArgs) (st : PState) :
    Bool × PState :=
  if A.pixel_ok = false then (false, st)
  else if A.medium_ok = false then (false, st)
  else if A.loading_manifest then load_rest env A (load_stage env A st)
  else
    match import_rom D env ("game." ++ A.medium_type) A.game_bytes
        (load_stage env A st).imported_files with
    | (ImportResult.undef, _) => (false, load_stage env A st)
    | (ImportResult.res ok m, _) =>
      if ok = false then
        (false, { load_stage env A st with imported_files := m })
      else load_rest env A { load_stage env A st with imported_files := m }

theorem disk_tier_failed_mono (env : Env) (st : PState) (id : Nat)
    (name : String) (mode : Mode) (required : Bool) (h : st.failed = true) :
    (disk_tier env st id name mode required).2.failed = true := by
  unfold disk_tier
  by_cases hd : env.diskOpen
      (if mode = Mode.read ∧ env.pathExists (st.medium_paths id ++ name) = false
       then locate_libretro env name else st.medium_paths id ++ name) mode
  · simp [hd, h]
  · by_cases hr : required <;> simp [hd, hr, h]

theorem program_open_failed_mono (env : Env) (st : PState) (id : Nat)
    (name : String) (mode : Mode) (required : Bool) (h : st.failed = true) :
    (program_open env st id name mode required).2.failed = true := by
  unfold program_open
  split
  · exact h
  · split
    · exact h
    · split
      · exact h
      · exact disk_tier_failed_mono env st id name mode required h

theorem do_opens_failed_mono (env : Env) (rs : List OpenReq) (st : PState)
    (h : st.failed = true) : (do_opens env st rs).failed = true := by
  induction rs generalizing st with
  | nil => exact h
  | cons r rest ih =>
    exact ih _ (program_open_failed_mono env st r.id r.name r.mode r.required h)

theorem load_rest_failed (env : Env) (A : LoadArgs) (st : PState)
    (h : st.failed = true) :
    (load_rest env A st).1 = false ∧ (load_rest env A st).2.failed = true := by
  unfold load_rest
  have h' := do_opens_failed_mono env A.emu_requests st h
  by_cases he : A.emu_load_ok = false <;> simp [he, h']

/-- Concrete refutation data for C7: a fully healthy load attempt
(frontend accepts the pixel format, the medium exists, a manifest is
being loaded so no import runs, and the engine issues no file requests
and reports success) applied to a Program whose `failed` flag is left
over from an earlier load. -/
def detC7 : Detector :=
  { imp := fun _ _ => true, missingOf := fun _ _ => [] }

def loadArgsC7 : LoadArgs :=
  { pixel_ok := true
    medium_ok := true
    medium_id := 1
    medium_name := "Super Famicom"
    medium_type := "sfc"
    loading_manifest := true
    game_manifest := "m"
    game_bytes := []
    game_path := "base/"
    emu_requests := []
    emu_load_ok := true
    emu_loaded_ok := true }

def stC7 : PState :=
  { medium_paths := fun _ => ""
    loaded_manifest := ""
    fake_game_path := ""
    imported_files := []
    failed := true }

/-- C7 counterexample: retro_load_game does not clear the sticky failure
flag at the start of a new load attempt — a load in which nothing at all
fails still returns false, and the flag stays set, because it carried
over from a previous load. -/
theorem C7_counterexample :
    (retro_load_game detC7 envC8 loadArgsC7 stC7).1 = false ∧
    (retro_load_game detC7 envC8 loadArgsC7 stC7).2.failed = true := by
  constructor <;> rfl

/-- C7 (amended): a required open that fails at every dispatcher tier
sets the sticky session failure flag and yields the empty handle; the
load sequence checks the flag after the engine's load attempt and aborts
startup when it is set; but retro_load_game never clears the flag — it
is initialised false only when the Program is constructed — so a failure
recorded in one load attempt carries into every subsequent load on the
same Program instance, which then fails as well. -/
theorem C7_sticky_failure :
    (∀ (env : Env) (st : PState) (id : Nat) (name : String) (mode : Mode),
      (if id = system_id then load_builtin_system_file name else none) = none →
      ¬ (name = "manifest.bml" ∧ id ≠ system_id ∧ st.loaded_manifest ≠ "") →
      FileMap.find st.imported_files name = none →
      (∀ p, env.diskOpen p mode = false) →
      program_open env st id name mode true
        = (OpenResult.empty, { st with failed := true })) ∧
    (∀ (env : Env) (A : LoadArgs) (st : PState),
      A.emu_load_ok = true →
      (do_opens env st A.emu_requests).failed = true →
      (load_rest env A st).1 = false) ∧
    (∀ (D : Detector) (env : Env) (A : LoadArgs) (st : PState),
      st.failed = true →
      (retro_load_game D env A st).1 = false ∧
      (retro_load_game D env A st).2.failed = true) := by
  refine ⟨?_, ?_, ?_⟩
  · intro env st id name mode h2 h1 h3 h4
    unfold program_open disk_tier
    rw [if_neg h1]
    simp [h2, h3, h4]
  · intro env A st hok hfl
    unfold load_rest
    simp [hok, hfl]
  · intro D env A st h
    unfold retro_load_game
    by_cases hp : A.pixel_ok = false
    · simp [hp, h]
    · by_cases hm : A.medium_ok = false
      · simp [hp, hm, h]
      · by_cases hl : A.loading_manifest
        · simp only [if_neg hp, if_neg hm, if_pos hl]
          exact load_rest_failed env A (load_stage env A st) h
        · simp only [if_neg hp, if_neg hm, if_neg hl]
          cases hir : import_rom D env ("game." ++ A.medium_type) A.game_bytes
              (load_stage env A st).imported_files with
          | mk r tr =>
            cases r with
            | undef => exact ⟨rfl, h⟩
            | res ok m =>
              dsimp only
              by_cases ho : ok = false
              · rw [if_pos ho]
                exact ⟨rfl, h⟩
              · rw [if_neg ho]
                exact load_rest_failed env A
                  { load_stage env A st with imported_files := m } h

theorem C7_sticky_failure_witness :
    program_open envC1 stC7 0 "cart.rom" Mode.modify true
      = (OpenResult.empty, { stC7 with failed := true }) ∧
    (retro_load_game detC7 envC8 loadArgsC7 stC7).1 = false :=
  ⟨C7_sticky_failure.1 envC1 stC7 0 "cart.rom" Mode.modify rfl (by decide)
      rfl (fun p => rfl),
   (C7_sticky_failure.2.2 detC7 envC8 loadArgsC7 stC7 rfl).1⟩

end Higan
